import Mathlib

/-!
Verification of the disperse (bulk transfer) module of soltoolkit-sdk.

The embedding below translates the TypeScript sources
`src/disperse/bulk-spl-transfer.ts`, `src/disperse/bulk-sol-transfer.ts`
and `src/disperse/transaction-builder.ts` into Lean.  Addresses and public
keys are modeled as strings (`new PublicKey s` on a base58 string is the
identity here); every builder of `transaction-builder.ts` becomes a
constructor of an `Instruction` datatype; a `Transaction` is the ordered
list of its instructions; thrown JavaScript errors become `Except.error`
with the thrown message; the RPC connection becomes a record holding the
`getAccountInfo` lookup function.
-/

namespace SolToolkit

abbrev PublicKey := String

/-- Instructions produced by the builders in `transaction-builder.ts`.
One constructor per builder; the engine never inspects their payloads. -/
inductive Instruction where
  | solTransfer (fromPubkey toPubkey : PublicKey) (lamports : Int)
  | splTransfer (fromTokenAccount toTokenAccount owner : PublicKey) (amount : Int)
  | memoIx (text : String) (signer : PublicKey)
  | createAccount (payer associatedAddress owner mint : PublicKey)
deriving DecidableEq

/-- Whether an instruction is a memo instruction. -/
def Instruction.isMemo : Instruction → Bool
  | .memoIx _ _ => true
  | _ => false

abbrev Transaction := List Instruction

/-- `getAssociatedTokenAddressSync` of `@solana/spl-token`, modeled as an
injective encoding of the (mint, owner) pair into an address string. -/
def getAssociatedTokenAddressSync (mint owner : PublicKey) : PublicKey :=
  "ata(" ++ mint ++ "," ++ owner ++ ")"

/-- `createSolTransferInstruction` from `transaction-builder.ts`. -/
def createSolTransferInstruction (fromPk toPk : PublicKey) (amountLamports : Int) : Instruction :=
  .solTransfer fromPk toPk amountLamports

/-- `createSplTransferInstructionByOwners` from `transaction-builder.ts`. -/
def createSplTransferInstructionByOwners (mint fromOwner toOwner : PublicKey)
    (rawAmount : Int) : Instruction :=
  .splTransfer (getAssociatedTokenAddressSync mint fromOwner)
    (getAssociatedTokenAddressSync mint toOwner) fromOwner rawAmount

/-- `createMemoInstruction` from `transaction-builder.ts`. -/
def createMemoInstruction (memo : String) (signer : PublicKey) : Instruction :=
  .memoIx memo signer

/-- `createTokenAccountInstruction` from `transaction-builder.ts`; returns
the instruction together with the associated address. -/
def createTokenAccountInstruction (payer mint owner : PublicKey) :
    Instruction × PublicKey :=
  let associatedAddress := getAssociatedTokenAddressSync mint owner
  (.createAccount payer associatedAddress owner mint, associatedAddress)

/-- `buildTransaction` from `transaction-builder.ts`: a transaction is the
ordered list of instructions added to it. -/
def buildTransaction (instructions : List Instruction) : Transaction :=
  instructions

/-- `ITransfer` from `types.ts`. -/
structure ITransfer where
  recipient : String
  amount : Int
  associatedTokenAccount : Option String
deriving DecidableEq

/-- `IBulkSolTransferConfig` from `types.ts`. -/
structure IBulkSolTransferConfig where
  sender : PublicKey
  transfers : Option (List ITransfer)
  recipients : Option (List String)
  fixedAmount : Option Int
  instructionsPerTx : Option Nat
  memo : Option String
deriving DecidableEq

/-- `IBulkSplTransferConfig` from `types.ts`. -/
structure IBulkSplTransferConfig where
  sender : PublicKey
  mint : PublicKey
  transfers : Option (List ITransfer)
  recipients : Option (List String)
  fixedAmount : Option Int
  instructionsPerTx : Option Nat
  memo : Option String
  decimals : Option Nat
deriving DecidableEq

/-- The Solana RPC connection, reduced to the one method the module uses:
`getAccountInfo`, which either returns the (possibly absent) account info
or fails.  Account contents are irrelevant, so info is `Option Unit`. -/
structure Connection where
  getAccountInfo : PublicKey → Except String (Option Unit)

def DEFAULT_INSTRUCTIONS_PER_TX_ACCOUNT_CREATION : Nat := 12
def DEFAULT_INSTRUCTIONS_PER_TX_TRANSFER : Nat := 18
def DEFAULT_SPL_MEMO : String := "Bulk SPL transfer"
def DEFAULT_SOL_MEMO : String := "Bulk SOL transfer"

/-- The `finalizeTransaction` closure of `generateBulkSplTransactions` /
`generateBulkSolTransactions`: when the current instruction list is
non-empty, append the memo instruction, emit the built transaction, and
reset the current list. -/
def finalizeTransaction (memo : String) (sender : PublicKey)
    (transactions : List Transaction) (currentInstructions : List Instruction) :
    List Transaction × List Instruction :=
  if 0 < currentInstructions.length then
    (transactions ++ [buildTransaction (currentInstructions ++ [createMemoInstruction memo sender])],
      [])
  else
    (transactions, currentInstructions)

/-- The indexed `for` loop shared by `generateBulkSplTransactions` and
`generateBulkSolTransactions` (the two sources are textually identical up
to the instruction builder): push the built instruction for input `i`,
then finalize when `(i + 1) % instructionsPerTx == 0` or `i` is the last
index.  `n` is the total input length, `i` the current index. -/
def bulkTransferLoop {β : Type} (build : β → Instruction) (memo : String)
    (sender : PublicKey) (instructionsPerTx n : Nat) :
    Nat → List β → List Transaction → List Instruction → List Transaction
  | _, [], transactions, _ => transactions
  | i, b :: rest, transactions, currentInstructions =>
    let currentInstructions := currentInstructions ++ [build b]
    if (i + 1) % instructionsPerTx = 0 ∨ i = n - 1 then
      let p := finalizeTransaction memo sender transactions currentInstructions
      bulkTransferLoop build memo sender instructionsPerTx n (i + 1) rest p.1 p.2
    else
      bulkTransferLoop build memo sender instructionsPerTx n (i + 1) rest
        transactions currentInstructions

/-- `generateBulkSplTransactions` from `bulk-spl-transfer.ts`.  Mode 1
(recipients with fixed amount) takes precedence; otherwise mode 2
(transfers array); otherwise the configuration error is thrown. -/
def generateBulkSplTransactions (config : IBulkSplTransferConfig) :
    Except String (List Transaction) :=
  let instructionsPerTx := config.instructionsPerTx.getD DEFAULT_INSTRUCTIONS_PER_TX_TRANSFER
  let memo := config.memo.getD DEFAULT_SPL_MEMO
  match config.fixedAmount, config.recipients with
  | some fixedAmount, some recipients =>
    .ok (bulkTransferLoop
      (fun r => createSplTransferInstructionByOwners config.mint config.sender r fixedAmount)
      memo config.sender instructionsPerTx recipients.length 0 recipients [] [])
  | _, _ =>
    match config.transfers with
    | some transfers =>
      .ok (bulkTransferLoop
        (fun t => createSplTransferInstructionByOwners config.mint config.sender
          t.recipient t.amount)
        memo config.sender instructionsPerTx transfers.length 0 transfers [] [])
    | none => .error "Either transfers or (recipients + fixedAmount) must be provided"

/-- `generateBulkSolTransactions` from `bulk-sol-transfer.ts`. -/
def generateBulkSolTransactions (config : IBulkSolTransferConfig) :
    Except String (List Transaction) :=
  let instructionsPerTx := config.instructionsPerTx.getD DEFAULT_INSTRUCTIONS_PER_TX_TRANSFER
  let memo := config.memo.getD DEFAULT_SOL_MEMO
  match config.fixedAmount, config.recipients with
  | some fixedAmount, some recipients =>
    .ok (bulkTransferLoop
      (fun r => createSolTransferInstruction config.sender r fixedAmount)
      memo config.sender instructionsPerTx recipients.length 0 recipients [] [])
  | _, _ =>
    match config.transfers with
    | some transfers =>
      .ok (bulkTransferLoop
        (fun t => createSolTransferInstruction config.sender t.recipient t.amount)
        memo config.sender instructionsPerTx transfers.length 0 transfers [] [])
    | none => .error "Either transfers or (recipients + fixedAmount) must be provided"

/-- The indexed `for` loop of `generateTokenAccountCreationTransactions`:
look up the associated account of recipient `i`; when missing, push a
creation instruction; finalize when the current list has reached
`instructionsPerTx` instructions or `i` is the last index, emitting a
transaction only when the current list is non-empty.  A failing lookup
aborts the whole loop with the error. -/
def accountCreationLoop (connection : Connection) (mint payer : PublicKey)
    (instructionsPerTx n : Nat) :
    Nat → List String → List Transaction → List Instruction →
      Except String (List Transaction)
  | _, [], transactions, _ => .ok transactions
  | i, r :: rest, transactions, currentInstructions =>
    match connection.getAccountInfo (getAssociatedTokenAddressSync mint r) with
    | .error e => .error e
    | .ok accountInfo =>
      let currentInstructions :=
        match accountInfo with
        | none => currentInstructions ++ [(createTokenAccountInstruction payer mint r).1]
        | some _ => currentInstructions
      if instructionsPerTx ≤ currentInstructions.length ∨ i = n - 1 then
        if 0 < currentInstructions.length then
          accountCreationLoop connection mint payer instructionsPerTx n (i + 1) rest
            (transactions ++ [buildTransaction currentInstructions]) []
        else
          accountCreationLoop connection mint payer instructionsPerTx n (i + 1) rest
            transactions currentInstructions
      else
        accountCreationLoop connection mint payer instructionsPerTx n (i + 1) rest
          transactions currentInstructions

/-- `generateTokenAccountCreationTransactions` from `bulk-spl-transfer.ts`.
The optional `instructionsPerTx` argument defaults to 12. -/
def generateTokenAccountCreationTransactions (connection : Connection)
    (mint payer : PublicKey) (recipients : List String)
    (instructionsPerTx : Option Nat) : Except String (List Transaction) :=
  accountCreationLoop connection mint payer
    (instructionsPerTx.getD DEFAULT_INSTRUCTIONS_PER_TX_ACCOUNT_CREATION)
    recipients.length 0 recipients [] []

/-- The recipient-list derivation at the top of
`generateCompleteBulkSplTransactions`: prefer `recipients`, else map the
`transfers` array to its recipients, else throw. -/
def deriveRecipientList (config : IBulkSplTransferConfig) :
    Except String (List String) :=
  match config.recipients with
  | some recipients => .ok recipients
  | none =>
    match config.transfers with
    | some transfers => .ok (transfers.map (fun t => t.recipient))
    | none => .error "Either transfers or recipients must be provided"

/-- Result record of `generateCompleteBulkSplTransactions`. -/
structure CompleteBulkSplResult where
  accountCreationTxs : List Transaction
  transferTxs : List Transaction
deriving DecidableEq

/-- `generateCompleteBulkSplTransactions` from `bulk-spl-transfer.ts`:
derive the recipient list, generate account-creation transactions (passing
the single `instructionsPerTx` option through), then generate the transfer
transactions from the same config. -/
def generateCompleteBulkSplTransactions (connection : Connection)
    (config : IBulkSplTransferConfig) : Except String CompleteBulkSplResult :=
  match deriveRecipientList config with
  | .error e => .error e
  | .ok recipientList =>
    match generateTokenAccountCreationTransactions connection config.mint config.sender
        recipientList config.instructionsPerTx with
    | .error e => .error e
    | .ok accountCreationTxs =>
      match generateBulkSplTransactions config with
      | .error e => .error e
      | .ok transferTxs => .ok ⟨accountCreationTxs, transferTxs⟩

/-! ### Specification-side helpers -/

/-- The content (non-memo) operations of a transaction. -/
def contentOps (tx : Transaction) : List Instruction :=
  tx.filter (fun ins => !ins.isMemo)

/-- Whether an `Except` value is a success. -/
def exceptIsOk {ε α : Type} : Except ε α → Bool
  | .ok _ => true
  | .error _ => false

/-- Whether the associated token account of `r` is reported missing by the
connection (a successful lookup returning no account info). -/
def accountMissing (connection : Connection) (mint : PublicKey) (r : String) : Bool :=
  match connection.getAccountInfo (getAssociatedTokenAddressSync mint r) with
  | .ok none => true
  | _ => false

/-- A transaction list has the packing shape for input size `n` and
capacity `c`: `ceil(n/c)` transactions, none when `n = 0`, every
transaction except possibly the last carrying exactly `c` content
operations, and the last carrying `n % c` of them (or `c` when `c`
divides `n` and `n > 0`). -/
def packingShape (c n : Nat) (txs : List Transaction) : Prop :=
  txs.length = (n + c - 1) / c ∧
  (n = 0 → txs = []) ∧
  (∀ tx ∈ txs.dropLast, (contentOps tx).length = c) ∧
  (0 < n → ∃ last, txs.getLast? = some last ∧
    (contentOps last).length = (if n % c = 0 then c else n % c))

/-- Greedy left-to-right chunking with a carried partial chunk: close the
current chunk whenever it reaches `c` elements, and flush a non-empty
partial chunk when the input ends.  This is the common shape of both
packing loops. -/
def chunkAcc {α : Type} (c : Nat) : List α → List α → List (List α)
  | [], cur =>
    match cur with
    | [] => []
    | _ => [cur]
  | x :: rest, cur =>
    let cur' := cur ++ [x]
    if c ≤ cur'.length then cur' :: chunkAcc c rest []
    else chunkAcc c rest cur'

/-! ### Arithmetic helper -/

theorem succ_mod_eq (i c : Nat) : (i + 1) % c = (i % c + 1) % c := by
  conv_lhs => rw [← Nat.mod_add_div i c, Nat.add_right_comm, Nat.add_mul_mod_self_left]

theorem succ_mod_eq_zero_iff (i c : Nat) (hc : 0 < c) :
    (i + 1) % c = 0 ↔ i % c + 1 = c := by
  rw [succ_mod_eq]
  have hlt : i % c < c := Nat.mod_lt _ hc
  constructor
  · intro h
    rcases Nat.lt_or_ge (i % c + 1) c with h2 | h2
    · rw [Nat.mod_eq_of_lt h2] at h
      omega
    · omega
  · intro h
    rw [h, Nat.mod_self]

/-! ### Chunking lemmas -/

theorem chunkAcc_flatten {α : Type} (c : Nat) :
    ∀ (ops cur : List α), (chunkAcc c ops cur).flatten = cur ++ ops
  | [], cur => by
    cases cur <;> simp [chunkAcc]
  | x :: rest, cur => by
    simp only [chunkAcc]
    by_cases h : c ≤ (cur ++ [x]).length
    · rw [if_pos h]
      simp [chunkAcc_flatten c rest []]
    · rw [if_neg h]
      rw [chunkAcc_flatten c rest (cur ++ [x])]
      simp

theorem chunkAcc_ne_nil {α : Type} (c : Nat) :
    ∀ (ops cur : List α), ops ≠ [] ∨ cur ≠ [] → chunkAcc c ops cur ≠ []
  | [], cur => by
    intro h
    rcases h with h | h
    · exact absurd rfl h
    · cases cur with
      | nil => exact absurd rfl h
      | cons a as => simp [chunkAcc]
  | x :: rest, cur => by
    intro _
    simp only [chunkAcc]
    by_cases h : c ≤ (cur ++ [x]).length
    · rw [if_pos h]
      simp
    · rw [if_neg h]
      exact chunkAcc_ne_nil c rest (cur ++ [x]) (Or.inr (by simp))

theorem chunkAcc_length {α : Type} (c : Nat) (hc : 1 ≤ c) :
    ∀ (ops cur : List α), cur.length < c →
      (chunkAcc c ops cur).length = (cur.length + ops.length + c - 1) / c
  | [], cur => by
    intro hcur
    cases cur with
    | nil =>
      have h0 : c - 1 < c := by omega
      simp [chunkAcc, Nat.div_eq_of_lt h0]
    | cons a as =>
      simp only [List.length_cons] at hcur
      simp only [chunkAcc, List.length_cons, List.length_nil, List.length_singleton]
      symm
      apply Nat.div_eq_of_lt_le
      · omega
      · omega
  | x :: rest, cur => by
    intro hcur
    have hx : (cur ++ [x]).length = cur.length + 1 := by simp
    simp only [chunkAcc, List.length_cons]
    by_cases h : c ≤ (cur ++ [x]).length
    · rw [if_pos h]
      have hfull : cur.length + 1 = c := by omega
      rw [List.length_cons, chunkAcc_length c hc rest [] (by simp; omega)]
      simp only [List.length_nil, Nat.zero_add]
      have harr : cur.length + (rest.length + 1) + c - 1 = rest.length + c - 1 + c := by
        omega
      rw [harr, Nat.add_div_right _ (by omega : 0 < c)]
    · rw [if_neg h]
      rw [chunkAcc_length c hc rest (cur ++ [x]) (by omega)]
      have harr : (cur ++ [x]).length + rest.length + c - 1 =
          cur.length + (rest.length + 1) + c - 1 := by omega
      rw [harr]

theorem chunkAcc_mem_size {α : Type} (c : Nat) (hc : 1 ≤ c) :
    ∀ (ops cur : List α), cur.length < c →
      ∀ ch ∈ chunkAcc c ops cur, 1 ≤ ch.length ∧ ch.length ≤ c
  | [], cur => by
    intro hcur ch hch
    cases cur with
    | nil => simp [chunkAcc] at hch
    | cons a as =>
      simp [chunkAcc] at hch
      subst hch
      constructor
      · simp
      · exact Nat.le_of_lt hcur
  | x :: rest, cur => by
    intro hcur ch hch
    simp only [chunkAcc] at hch
    by_cases h : c ≤ (cur ++ [x]).length
    · rw [if_pos h] at hch
      rcases List.mem_cons.mp hch with h1 | h1
      · subst h1
        constructor
        · simp
        · simp at h ⊢
          omega
      · exact chunkAcc_mem_size c hc rest [] (by simpa using hc) ch h1
    · rw [if_neg h] at hch
      exact chunkAcc_mem_size c hc rest (cur ++ [x]) (by simp at h ⊢; omega) ch hch

theorem chunkAcc_dropLast_size {α : Type} (c : Nat) (hc : 1 ≤ c) :
    ∀ (ops cur : List α), cur.length < c →
      ∀ ch ∈ (chunkAcc c ops cur).dropLast, ch.length = c
  | [], cur => by
    intro hcur ch hch
    cases cur with
    | nil => simp [chunkAcc] at hch
    | cons a as => simp [chunkAcc] at hch
  | x :: rest, cur => by
    intro hcur ch hch
    have hx : (cur ++ [x]).length = cur.length + 1 := by simp
    simp only [chunkAcc] at hch
    by_cases h : c ≤ (cur ++ [x]).length
    · rw [if_pos h] at hch
      by_cases hrest : rest = []
      · subst hrest
        simp [chunkAcc] at hch
      · have hne : chunkAcc c rest [] ≠ [] := chunkAcc_ne_nil c rest [] (Or.inl hrest)
        rw [List.dropLast_cons_of_ne_nil hne] at hch
        rcases List.mem_cons.mp hch with h1 | h1
        · subst h1
          omega
        · exact chunkAcc_dropLast_size c hc rest [] (by simp; omega) ch h1
    · rw [if_neg h] at hch
      exact chunkAcc_dropLast_size c hc rest (cur ++ [x]) (by omega) ch hch

theorem chunkAcc_getLast_size {α : Type} (c : Nat) (hc : 1 ≤ c) :
    ∀ (ops cur : List α), cur.length < c → ops ≠ [] ∨ cur ≠ [] →
      ∃ last, (chunkAcc c ops cur).getLast? = some last ∧
        last.length = (if (cur.length + ops.length) % c = 0 then c
          else (cur.length + ops.length) % c)
  | [], cur => by
    intro hcur hne
    cases cur with
    | nil =>
      rcases hne with h | h <;> exact absurd rfl h
    | cons a as =>
      refine ⟨a :: as, by simp [chunkAcc], ?_⟩
      simp only [List.length_nil, Nat.add_zero]
      rw [Nat.mod_eq_of_lt hcur, if_neg (by simp)]
  | x :: rest, cur => by
    intro hcur hne
    have hx : (cur ++ [x]).length = cur.length + 1 := by simp
    simp only [chunkAcc]
    by_cases h : c ≤ (cur ++ [x]).length
    · rw [if_pos h]
      have hfull : cur.length + 1 = c := by omega
      by_cases hrest : rest = []
      · subst hrest
        refine ⟨cur ++ [x], by simp [chunkAcc], ?_⟩
        simp only [List.length_append, List.length_cons, List.length_nil, Nat.zero_add]
        rw [hfull, Nat.mod_self, if_pos rfl]
      · have hne2 : chunkAcc c rest [] ≠ [] := chunkAcc_ne_nil c rest [] (Or.inl hrest)
        obtain ⟨last, hlast, hlen⟩ :=
          chunkAcc_getLast_size c hc rest [] (by simp; omega) (Or.inl hrest)
        obtain ⟨ch0, chs, hch0⟩ := List.exists_cons_of_ne_nil hne2
        rw [hch0] at hlast ⊢
        refine ⟨last, by rw [List.getLast?_cons_cons]; exact hlast, ?_⟩
        rw [hlen]
        have he : cur.length + (x :: rest).length = (List.length ([] : List α) + rest.length) + c := by
          simp
          omega
        rw [he, Nat.add_mod_right]
    · rw [if_neg h]
      obtain ⟨last, hlast, hlen⟩ :=
        chunkAcc_getLast_size c hc rest (cur ++ [x]) (by omega) (Or.inr (by simp))
      refine ⟨last, hlast, ?_⟩
      rw [hlen]
      have he : cur.length + (x :: rest).length = (cur ++ [x]).length + rest.length := by
        simp
        omega
      rw [he]

theorem chunkAcc_mem_subset {α : Type} (c : Nat) (ops cur : List α)
    (ch : List α) (hch : ch ∈ chunkAcc c ops cur) :
    ∀ x ∈ ch, x ∈ cur ++ ops := by
  intro x hx
  rw [← chunkAcc_flatten c ops cur]
  exact List.mem_flatten_of_mem hch hx

/-! ### Characterization of the transfer packing loop -/

theorem finalizeTransaction_of_ne_nil (memo : String) (sender : PublicKey)
    (txs : List Transaction) (cur : List Instruction) (x : Instruction) :
    finalizeTransaction memo sender txs (cur ++ [x]) =
      (txs ++ [cur ++ [x] ++ [createMemoInstruction memo sender]], []) := by
  simp [finalizeTransaction, buildTransaction]

theorem bulkTransferLoop_eq {β : Type} (build : β → Instruction) (memo : String)
    (sender : PublicKey) (c n : Nat) (hc : 1 ≤ c) :
    ∀ (rest : List β) (i : Nat) (txs : List Transaction) (cur : List Instruction),
      i + rest.length = n →
      (rest ≠ [] → cur.length = i % c) →
      (rest = [] → cur = []) →
      bulkTransferLoop build memo sender c n i rest txs cur =
        txs ++ (chunkAcc c (rest.map build) cur).map
          (fun ch => ch ++ [createMemoInstruction memo sender])
  | [] => by
    intro i txs cur h1 h2 h3
    rw [h3 rfl]
    simp [bulkTransferLoop, chunkAcc]
  | b :: rest => by
    intro i txs cur h1 h2 h3
    have hcur : cur.length = i % c := h2 (by simp)
    have hlt : i % c < c := Nat.mod_lt i (by omega)
    simp only [List.length_cons] at h1
    simp only [bulkTransferLoop, List.map_cons, chunkAcc]
    by_cases hfull : i % c + 1 = c
    · have hmod : (i + 1) % c = 0 := (succ_mod_eq_zero_iff i c (by omega)).mpr hfull
      rw [if_pos (Or.inl hmod)]
      rw [finalizeTransaction_of_ne_nil]
      rw [bulkTransferLoop_eq build memo sender c n hc rest (i + 1) _ []
        (by omega) (fun _ => by simp [hmod]) (fun _ => rfl)]
      rw [if_pos (by simp; omega)]
      simp
    · by_cases hrest : rest = []
      · subst hrest
        have hlast : i = n - 1 := by simp at h1; omega
        rw [if_pos (Or.inr hlast)]
        rw [finalizeTransaction_of_ne_nil]
        simp only [bulkTransferLoop]
        rw [if_neg (by simp; omega)]
        simp [chunkAcc]
      · have hmodne : (i + 1) % c ≠ 0 := fun hh =>
          hfull ((succ_mod_eq_zero_iff i c (by omega)).mp hh)
        have hlastne : i ≠ n - 1 := by
          have : rest.length ≠ 0 := fun hh => hrest (List.length_eq_zero.mp hh)
          omega
        rw [if_neg (by rintro (hh | hh) <;> [exact hmodne hh; exact hlastne hh])]
        rw [bulkTransferLoop_eq build memo sender c n hc rest (i + 1) txs (cur ++ [build b])
          (by omega)
          (fun _ => by
            have hstep : (i + 1) % c = i % c + 1 := by
              rw [succ_mod_eq]
              exact Nat.mod_eq_of_lt (by omega)
            simp [hstep, hcur])
          (fun hh => absurd hh hrest)]
        rw [if_neg (by simp; omega)]

/-! ### Characterization of the account creation loop -/

theorem accountCreationLoop_eq (connection : Connection) (mint payer : PublicKey)
    (c n : Nat) (hc : 1 ≤ c) :
    ∀ (rest : List String) (i : Nat) (txs : List Transaction) (cur : List Instruction),
      i + rest.length = n →
      cur.length < c →
      (rest = [] → cur = []) →
      (∀ r ∈ rest,
        exceptIsOk (connection.getAccountInfo (getAssociatedTokenAddressSync mint r)) = true) →
      accountCreationLoop connection mint payer c n i rest txs cur =
        .ok (txs ++ chunkAcc c
          ((rest.filter (fun r => accountMissing connection mint r)).map
            (fun r => (createTokenAccountInstruction payer mint r).1)) cur)
  | [] => by
    intro i txs cur h1 h2 h3 h4
    rw [h3 rfl]
    simp [accountCreationLoop, chunkAcc]
  | r :: rest => by
    intro i txs cur h1 h2 h3 h4
    simp only [List.length_cons] at h1
    have hok := h4 r (by simp)
    have h4' : ∀ r' ∈ rest,
        exceptIsOk (connection.getAccountInfo (getAssociatedTokenAddressSync mint r')) = true :=
      fun r' hr' => h4 r' (by simp [hr'])
    cases hinfo : connection.getAccountInfo (getAssociatedTokenAddressSync mint r) with
    | error e =>
      rw [hinfo] at hok
      simp [exceptIsOk] at hok
    | ok v =>
      cases v with
      | none =>
        have hmiss : accountMissing connection mint r = true := by
          simp [accountMissing, hinfo]
        rw [List.filter_cons, if_pos hmiss]
        simp only [accountCreationLoop, hinfo, List.map_cons, chunkAcc]
        by_cases hfull : c ≤ (cur ++ [(createTokenAccountInstruction payer mint r).1]).length
        · rw [if_pos (Or.inl hfull), if_pos (by simp)]
          rw [accountCreationLoop_eq connection mint payer c n hc rest (i + 1) _ []
            (by omega) (by simp; omega) (fun _ => rfl) h4']
          rw [if_pos hfull]
          simp [buildTransaction]
        · by_cases hrest : rest = []
          · subst hrest
            simp only [List.length_nil] at h1
            rw [if_pos (Or.inr (by omega)), if_pos (by simp)]
            simp only [accountCreationLoop]
            rw [if_neg hfull]
            simp [chunkAcc, buildTransaction]
          · have hlastne : i ≠ n - 1 := by
              have : rest.length ≠ 0 := fun hh => hrest (List.length_eq_zero.mp hh)
              omega
            rw [if_neg (by rintro (hh | hh) <;> [exact hfull hh; exact hlastne hh])]
            rw [accountCreationLoop_eq connection mint payer c n hc rest (i + 1) txs
              (cur ++ [(createTokenAccountInstruction payer mint r).1])
              (by omega) (by simp at hfull ⊢; omega) (fun hh => absurd hh hrest) h4']
            rw [if_neg hfull]
      | some u =>
        have hmiss : accountMissing connection mint r = false := by
          simp [accountMissing, hinfo]
        rw [List.filter_cons, if_neg (by simp [hmiss])]
        simp only [accountCreationLoop, hinfo]
        by_cases hrest : rest = []
        · subst hrest
          simp only [List.length_nil] at h1
          rw [if_pos (Or.inr (by omega))]
          cases cur with
          | nil =>
            rw [if_neg (by simp)]
            simp [accountCreationLoop, chunkAcc]
          | cons a as =>
            rw [if_pos (by simp)]
            simp [accountCreationLoop, chunkAcc, buildTransaction]
        · have hlastne : i ≠ n - 1 := by
            have : rest.length ≠ 0 := fun hh => hrest (List.length_eq_zero.mp hh)
            omega
          rw [if_neg (by rintro (hh | hh) <;> [omega; exact hlastne hh])]
          rw [accountCreationLoop_eq connection mint payer c n hc rest (i + 1) txs cur
            (by omega) h2 (fun hh => absurd hh hrest) h4']

/-! ### Properties of packed transfer results -/

theorem contentOps_append_memo (ch : List Instruction) (m : Instruction)
    (hch : ∀ x ∈ ch, x.isMemo = false) (hm : m.isMemo = true) :
    contentOps (ch ++ [m]) = ch := by
  simp only [contentOps, List.filter_append]
  rw [List.filter_eq_self.mpr (fun a ha => by simp [hch a ha])]
  simp [hm]

theorem packed_length (c : Nat) (hc : 1 ≤ c) (L : List Instruction) (m : Instruction) :
    ((chunkAcc c L []).map (fun ch => ch ++ [m])).length = (L.length + c - 1) / c := by
  rw [List.length_map, chunkAcc_length c hc L [] (by simp; omega)]
  simp

theorem packed_flatten (c : Nat) (L : List Instruction) (m : Instruction)
    (hm : m.isMemo = true) (hL : ∀ x ∈ L, x.isMemo = false) :
    ((((chunkAcc c L []).map (fun ch => ch ++ [m]))).map contentOps).flatten = L := by
  rw [List.map_map]
  have hcg : ∀ ch ∈ chunkAcc c L [], (contentOps ∘ fun ch => ch ++ [m]) ch = id ch := by
    intro ch hch
    have hsub : ∀ x ∈ ch, x ∈ L := by
      simpa using chunkAcc_mem_subset c L [] ch hch
    simpa using contentOps_append_memo ch m (fun x hx => hL x (hsub x hx)) hm
  rw [List.map_congr_left hcg, List.map_id]
  simpa using chunkAcc_flatten c L []

theorem packed_mem (c : Nat) (hc : 1 ≤ c) (L : List Instruction) (m : Instruction)
    (hm : m.isMemo = true) (hL : ∀ x ∈ L, x.isMemo = false) :
    ∀ tx ∈ (chunkAcc c L []).map (fun ch => ch ++ [m]),
      tx.countP (fun ins => ins.isMemo) = 1 ∧ tx.getLast? = some m ∧
        2 ≤ tx.length ∧ tx.length ≤ c + 1 := by
  intro tx htx
  obtain ⟨ch, hch, rfl⟩ := List.mem_map.mp htx
  have hsz := chunkAcc_mem_size c hc L [] (by simp; omega) ch hch
  have hsub : ∀ x ∈ ch, x ∈ L := by
    simpa using chunkAcc_mem_subset c L [] ch hch
  refine ⟨?_, ?_, ?_, ?_⟩
  · rw [List.countP_append]
    have h0 : ch.countP (fun ins => ins.isMemo) = 0 :=
      List.countP_eq_zero.mpr (fun a ha => by simp [hL a (hsub a ha)])
    simp [h0, hm, List.countP_cons]
  · exact List.getLast?_concat ch
  · simp
    omega
  · simp
    omega

theorem packed_dropLast (c : Nat) (hc : 1 ≤ c) (L : List Instruction) (m : Instruction)
    (hm : m.isMemo = true) (hL : ∀ x ∈ L, x.isMemo = false) :
    ∀ tx ∈ ((chunkAcc c L []).map (fun ch => ch ++ [m])).dropLast,
      (contentOps tx).length = c := by
  intro tx htx
  rw [← List.map_dropLast] at htx
  obtain ⟨ch, hch, rfl⟩ := List.mem_map.mp htx
  have hchL : ch ∈ chunkAcc c L [] := (List.dropLast_sublist _).subset hch
  have hsub : ∀ x ∈ ch, x ∈ L := by
    simpa using chunkAcc_mem_subset c L [] ch hchL
  rw [contentOps_append_memo ch m (fun x hx => hL x (hsub x hx)) hm]
  exact chunkAcc_dropLast_size c hc L [] (by simp; omega) ch hch

theorem packed_getLast (c : Nat) (hc : 1 ≤ c) (L : List Instruction) (m : Instruction)
    (hm : m.isMemo = true) (hL : ∀ x ∈ L, x.isMemo = false) (hne : L ≠ []) :
    ∃ tx, ((chunkAcc c L []).map (fun ch => ch ++ [m])).getLast? = some tx ∧
      (contentOps tx).length = (if L.length % c = 0 then c else L.length % c) := by
  obtain ⟨last, hlast, hlen⟩ := chunkAcc_getLast_size c hc L [] (by simp; omega) (Or.inl hne)
  refine ⟨last ++ [m], ?_, ?_⟩
  · rw [List.getLast?_map, hlast]
    rfl
  · have hmem : last ∈ chunkAcc c L [] := List.mem_of_getLast?_eq_some hlast
    have hsub : ∀ x ∈ last, x ∈ L := by
      simpa using chunkAcc_mem_subset c L [] last hmem
    rw [contentOps_append_memo last m (fun x hx => hL x (hsub x hx)) hm, hlen]
    simp

/-! ### Mode-level closed forms of the generators -/

theorem generateBulkSplTransactions_mode1 (sender mint : PublicKey)
    (tOpt : Option (List ITransfer)) (rs : List String) (a : Int)
    (iptOpt : Option Nat) (mo : Option String) (dec : Option Nat)
    (hc : 1 ≤ iptOpt.getD DEFAULT_INSTRUCTIONS_PER_TX_TRANSFER) :
    generateBulkSplTransactions ⟨sender, mint, tOpt, some rs, some a, iptOpt, mo, dec⟩ =
      .ok ((chunkAcc (iptOpt.getD DEFAULT_INSTRUCTIONS_PER_TX_TRANSFER)
          (rs.map (fun r => createSplTransferInstructionByOwners mint sender r a)) []).map
        (fun ch => ch ++ [createMemoInstruction (mo.getD DEFAULT_SPL_MEMO) sender])) := by
  simp only [generateBulkSplTransactions]
  rw [bulkTransferLoop_eq _ _ _ _ _ hc rs 0 [] [] (by simp) (fun _ => by simp)
    (fun _ => rfl)]
  simp

theorem generateBulkSplTransactions_mode2 (sender mint : PublicKey)
    (ts : List ITransfer) (rOpt : Option (List String)) (aOpt : Option Int)
    (iptOpt : Option Nat) (mo : Option String) (dec : Option Nat)
    (hnot : aOpt = none ∨ rOpt = none)
    (hc : 1 ≤ iptOpt.getD DEFAULT_INSTRUCTIONS_PER_TX_TRANSFER) :
    generateBulkSplTransactions ⟨sender, mint, some ts, rOpt, aOpt, iptOpt, mo, dec⟩ =
      .ok ((chunkAcc (iptOpt.getD DEFAULT_INSTRUCTIONS_PER_TX_TRANSFER)
          (ts.map (fun t => createSplTransferInstructionByOwners mint sender
            t.recipient t.amount)) []).map
        (fun ch => ch ++ [createMemoInstruction (mo.getD DEFAULT_SPL_MEMO) sender])) := by
  have hloop := bulkTransferLoop_eq
    (fun t => createSplTransferInstructionByOwners mint sender t.recipient t.amount)
    (mo.getD DEFAULT_SPL_MEMO) sender (iptOpt.getD DEFAULT_INSTRUCTIONS_PER_TX_TRANSFER)
    ts.length hc ts 0 [] [] (by simp) (fun _ => by simp) (fun _ => rfl)
  rcases hnot with h | h
  · subst h
    cases rOpt <;> · simp only [generateBulkSplTransactions]
                     rw [hloop]
                     simp
  · subst h
    cases aOpt <;> · simp only [generateBulkSplTransactions]
                     rw [hloop]
                     simp

theorem generateBulkSolTransactions_mode1 (sender : PublicKey)
    (tOpt : Option (List ITransfer)) (rs : List String) (a : Int)
    (iptOpt : Option Nat) (mo : Option String)
    (hc : 1 ≤ iptOpt.getD DEFAULT_INSTRUCTIONS_PER_TX_TRANSFER) :
    generateBulkSolTransactions ⟨sender, tOpt, some rs, some a, iptOpt, mo⟩ =
      .ok ((chunkAcc (iptOpt.getD DEFAULT_INSTRUCTIONS_PER_TX_TRANSFER)
          (rs.map (fun r => createSolTransferInstruction sender r a)) []).map
        (fun ch => ch ++ [createMemoInstruction (mo.getD DEFAULT_SOL_MEMO) sender])) := by
  simp only [generateBulkSolTransactions]
  rw [bulkTransferLoop_eq _ _ _ _ _ hc rs 0 [] [] (by simp) (fun _ => by simp)
    (fun _ => rfl)]
  simp

theorem generateBulkSolTransactions_mode2 (sender : PublicKey)
    (ts : List ITransfer) (rOpt : Option (List String)) (aOpt : Option Int)
    (iptOpt : Option Nat) (mo : Option String)
    (hnot : aOpt = none ∨ rOpt = none)
    (hc : 1 ≤ iptOpt.getD DEFAULT_INSTRUCTIONS_PER_TX_TRANSFER) :
    generateBulkSolTransactions ⟨sender, some ts, rOpt, aOpt, iptOpt, mo⟩ =
      .ok ((chunkAcc (iptOpt.getD DEFAULT_INSTRUCTIONS_PER_TX_TRANSFER)
          (ts.map (fun t => createSolTransferInstruction sender t.recipient t.amount)) []).map
        (fun ch => ch ++ [createMemoInstruction (mo.getD DEFAULT_SOL_MEMO) sender])) := by
  have hloop := bulkTransferLoop_eq
    (fun t => createSolTransferInstruction sender t.recipient t.amount)
    (mo.getD DEFAULT_SOL_MEMO) sender (iptOpt.getD DEFAULT_INSTRUCTIONS_PER_TX_TRANSFER)
    ts.length hc ts 0 [] [] (by simp) (fun _ => by simp) (fun _ => rfl)
  rcases hnot with h | h
  · subst h
    cases rOpt <;> · simp only [generateBulkSolTransactions]
                     rw [hloop]
                     simp
  · subst h
    cases aOpt <;> · simp only [generateBulkSolTransactions]
                     rw [hloop]
                     simp

theorem generateTokenAccountCreationTransactions_eq (connection : Connection)
    (mint payer : PublicKey) (recipients : List String) (iptOpt : Option Nat)
    (hc : 1 ≤ iptOpt.getD DEFAULT_INSTRUCTIONS_PER_TX_ACCOUNT_CREATION)
    (hok : ∀ r ∈ recipients,
      exceptIsOk (connection.getAccountInfo (getAssociatedTokenAddressSync mint r)) = true) :
    generateTokenAccountCreationTransactions connection mint payer recipients iptOpt =
      .ok (chunkAcc (iptOpt.getD DEFAULT_INSTRUCTIONS_PER_TX_ACCOUNT_CREATION)
        ((recipients.filter (fun r => accountMissing connection mint r)).map
          (fun r => (createTokenAccountInstruction payer mint r).1)) []) := by
  simp only [generateTokenAccountCreationTransactions]
  rw [accountCreationLoop_eq connection mint payer _ _ hc recipients 0 [] []
    (by simp) (by simp; omega) (fun _ => rfl) hok]
  simp

/-! ### Error propagation and degenerate-capacity behavior -/

theorem accountCreationLoop_error (connection : Connection) (mint payer : PublicKey)
    (c n : Nat) :
    ∀ (rest : List String) (i : Nat) (txs : List Transaction) (cur : List Instruction),
      (∃ r ∈ rest,
        exceptIsOk (connection.getAccountInfo (getAssociatedTokenAddressSync mint r)) = false) →
      ∃ e, accountCreationLoop connection mint payer c n i rest txs cur = .error e
  | [] => by
    intro i txs cur h
    simp at h
  | r :: rest => by
    intro i txs cur h
    cases hinfo : connection.getAccountInfo (getAssociatedTokenAddressSync mint r) with
    | error e =>
      refine ⟨e, ?_⟩
      simp [accountCreationLoop, hinfo]
    | ok v =>
      have h' : ∃ r' ∈ rest,
          exceptIsOk (connection.getAccountInfo (getAssociatedTokenAddressSync mint r')) = false := by
        rcases h with ⟨r', hr', hfail⟩
        rcases List.mem_cons.mp hr' with rfl | hr'
        · rw [hinfo] at hfail
          simp [exceptIsOk] at hfail
        · exact ⟨r', hr', hfail⟩
      have IH : ∀ (i' : Nat) (txs' : List Transaction) (cur' : List Instruction),
          ∃ e, accountCreationLoop connection mint payer c n i' rest txs' cur' = .error e :=
        fun i' txs' cur' => accountCreationLoop_error connection mint payer c n rest i' txs' cur' h'
      simp only [accountCreationLoop, hinfo]
      cases v with
      | none =>
        by_cases h1 : c ≤ (cur ++ [(createTokenAccountInstruction payer mint r).1]).length ∨ i = n - 1
        · rw [if_pos h1]
          rw [if_pos (by simp)]
          exact IH _ _ _
        · rw [if_neg h1]
          exact IH _ _ _
      | some u =>
        by_cases h1 : c ≤ cur.length ∨ i = n - 1
        · rw [if_pos h1]
          by_cases h2 : 0 < cur.length
          · rw [if_pos h2]
            exact IH _ _ _
          · rw [if_neg h2]
            exact IH _ _ _
        · rw [if_neg h1]
          exact IH _ _ _

theorem bulkTransferLoop_zero {β : Type} (build : β → Instruction) (memo : String)
    (sender : PublicKey) (n : Nat) :
    ∀ (rest : List β) (i : Nat) (txs : List Transaction) (cur : List Instruction),
      i + rest.length = n → rest ≠ [] →
      bulkTransferLoop build memo sender 0 n i rest txs cur =
        txs ++ [cur ++ rest.map build ++ [createMemoInstruction memo sender]]
  | [] => fun i txs cur _ h2 => absurd rfl h2
  | b :: rest => by
    intro i txs cur h1 _
    simp only [List.length_cons] at h1
    simp only [bulkTransferLoop]
    by_cases hrest : rest = []
    · subst hrest
      simp only [List.length_nil] at h1
      rw [if_pos (Or.inr (by omega))]
      rw [finalizeTransaction_of_ne_nil]
      simp [bulkTransferLoop]
    · have hmod : (i + 1) % 0 ≠ 0 := by simp
      have hlast : i ≠ n - 1 := by
        have : rest.length ≠ 0 := fun hh => hrest (List.length_eq_zero.mp hh)
        omega
      rw [if_neg (by rintro (hh | hh) <;> [exact hmod hh; exact hlast hh])]
      rw [bulkTransferLoop_zero build memo sender n rest (i + 1) txs (cur ++ [build b])
        (by omega) hrest]
      simp

theorem accountCreationLoop_zero (connection : Connection) (mint payer : PublicKey)
    (n : Nat) :
    ∀ (rest : List String) (i : Nat) (txs : List Transaction),
      i + rest.length = n →
      (∀ r ∈ rest,
        exceptIsOk (connection.getAccountInfo (getAssociatedTokenAddressSync mint r)) = true) →
      accountCreationLoop connection mint payer 0 n i rest txs [] =
        .ok (txs ++ (rest.filter (fun r => accountMissing connection mint r)).map
          (fun r => [(createTokenAccountInstruction payer mint r).1]))
  | [] => by
    intro i txs h1 h4
    simp [accountCreationLoop]
  | r :: rest => by
    intro i txs h1 h4
    simp only [List.length_cons] at h1
    have hok := h4 r (by simp)
    have h4' : ∀ r' ∈ rest,
        exceptIsOk (connection.getAccountInfo (getAssociatedTokenAddressSync mint r')) = true :=
      fun r' hr' => h4 r' (by simp [hr'])
    cases hinfo : connection.getAccountInfo (getAssociatedTokenAddressSync mint r) with
    | error e =>
      rw [hinfo] at hok
      simp [exceptIsOk] at hok
    | ok v =>
      simp only [accountCreationLoop, hinfo]
      cases v with
      | none =>
        have hmiss : accountMissing connection mint r = true := by
          simp [accountMissing, hinfo]
        rw [List.filter_cons, if_pos hmiss]
        rw [if_pos (Or.inl (by simp)), if_pos (by simp)]
        rw [accountCreationLoop_zero connection mint payer n rest (i + 1)
          (txs ++ [buildTransaction ([] ++ [(createTokenAccountInstruction payer mint r).1])])
          (by omega) h4']
        simp [buildTransaction]
      | some u =>
        have hmiss : accountMissing connection mint r = false := by
          simp [accountMissing, hinfo]
        have hmiss' : ¬(accountMissing connection mint r = true) := by simp [hmiss]
        rw [List.filter_cons, if_neg hmiss']
        exact accountCreationLoop_zero connection mint payer n rest (i + 1) txs
          (by omega) h4'

/-! ### Closed form of the orchestrator in recipients mode -/

theorem generateCompleteBulkSplTransactions_mode1 (connection : Connection)
    (sender mint : PublicKey) (rs : List String) (a : Int)
    (iptOpt : Option Nat) (mo : Option String) (dec : Option Nat)
    (hcAcc : 1 ≤ iptOpt.getD DEFAULT_INSTRUCTIONS_PER_TX_ACCOUNT_CREATION)
    (hcTr : 1 ≤ iptOpt.getD DEFAULT_INSTRUCTIONS_PER_TX_TRANSFER)
    (hok : ∀ r ∈ rs,
      exceptIsOk (connection.getAccountInfo (getAssociatedTokenAddressSync mint r)) = true) :
    generateCompleteBulkSplTransactions connection
        ⟨sender, mint, none, some rs, some a, iptOpt, mo, dec⟩ =
      .ok ⟨chunkAcc (iptOpt.getD DEFAULT_INSTRUCTIONS_PER_TX_ACCOUNT_CREATION)
            ((rs.filter (fun r => accountMissing connection mint r)).map
              (fun r => (createTokenAccountInstruction sender mint r).1)) [],
          (chunkAcc (iptOpt.getD DEFAULT_INSTRUCTIONS_PER_TX_TRANSFER)
            (rs.map (fun r => createSplTransferInstructionByOwners mint sender r a)) []).map
            (fun ch => ch ++ [createMemoInstruction (mo.getD DEFAULT_SPL_MEMO) sender])⟩ := by
  have hacc := generateTokenAccountCreationTransactions_eq connection mint sender rs iptOpt
    hcAcc hok
  have htr := generateBulkSplTransactions_mode1 sender mint none rs a iptOpt mo dec hcTr
  simp only [generateCompleteBulkSplTransactions, deriveRecipientList]
  rw [hacc, htr]

theorem packed_packingShape (c : Nat) (hc : 1 ≤ c) (L : List Instruction) (m : Instruction)
    (hm : m.isMemo = true) (hL : ∀ x ∈ L, x.isMemo = false) :
    packingShape c L.length ((chunkAcc c L []).map (fun ch => ch ++ [m])) := by
  refine ⟨packed_length c hc L m, ?_, packed_dropLast c hc L m hm hL, ?_⟩
  · intro h0
    have hlen : ((chunkAcc c L []).map (fun ch => ch ++ [m])).length = 0 := by
      rw [packed_length c hc L m, h0]
      exact Nat.div_eq_of_lt (by omega)
    exact List.length_eq_zero.mp hlen
  · intro hpos
    exact packed_getLast c hc L m hm hL (by
      intro hnil
      rw [hnil] at hpos
      simp at hpos)

/-! ### Claims -/

/-- Claim C1: for every ordered list of N transfer requests and every
capacity C ≥ 1, the transfer packing of `generateBulkSplTransactions` and
`generateBulkSolTransactions` emits exactly ceil(N/C) transactions (none
when N = 0), where every transaction except possibly the last carries
exactly C content (transfer) operations and the last carries N mod C of
them (or C when N mod C = 0 and N > 0) — the shape induced by cutting
after input index i exactly when (i + 1) mod C = 0 or i is the last
index. -/
theorem C1_packing_shape (sender mint : PublicKey) (ts : List ITransfer)
    (c : Nat) (mo : Option String) (dec : Option Nat) (hc : 1 ≤ c) :
    (∃ txs, generateBulkSplTransactions ⟨sender, mint, some ts, none, none, some c, mo, dec⟩ =
        .ok txs ∧ packingShape c ts.length txs) ∧
    (∃ txs, generateBulkSolTransactions ⟨sender, some ts, none, none, some c, mo⟩ =
        .ok txs ∧ packingShape c ts.length txs) := by
  have hc' : 1 ≤ (some c).getD DEFAULT_INSTRUCTIONS_PER_TX_TRANSFER := by simpa using hc
  constructor
  · refine ⟨_, generateBulkSplTransactions_mode2 sender mint ts none none (some c) mo dec
      (Or.inl rfl) hc', ?_⟩
    have hshape := packed_packingShape ((some c).getD DEFAULT_INSTRUCTIONS_PER_TX_TRANSFER) hc'
      (ts.map (fun t => createSplTransferInstructionByOwners mint sender t.recipient t.amount))
      (createMemoInstruction (mo.getD DEFAULT_SPL_MEMO) sender) rfl
      (by
        intro x hx
        obtain ⟨t, _, rfl⟩ := List.mem_map.mp hx
        rfl)
    simpa using hshape
  · refine ⟨_, generateBulkSolTransactions_mode2 sender ts none none (some c) mo
      (Or.inl rfl) hc', ?_⟩
    have hshape := packed_packingShape ((some c).getD DEFAULT_INSTRUCTIONS_PER_TX_TRANSFER) hc'
      (ts.map (fun t => createSolTransferInstruction sender t.recipient t.amount))
      (createMemoInstruction (mo.getD DEFAULT_SOL_MEMO) sender) rfl
      (by
        intro x hx
        obtain ⟨t, _, rfl⟩ := List.mem_map.mp hx
        rfl)
    simpa using hshape

theorem C1_packing_shape_witness :
    1 ≤ 2 ∧
    ((∃ txs, generateBulkSplTransactions ⟨"S", "M",
        some [⟨"A", 1, none⟩, ⟨"B", 2, none⟩, ⟨"C", 3, none⟩], none, none, some 2, none, none⟩ =
        .ok txs ∧ packingShape 2 3 txs) ∧
     (∃ txs, generateBulkSolTransactions ⟨"S",
        some [⟨"A", 1, none⟩, ⟨"B", 2, none⟩, ⟨"C", 3, none⟩], none, none, some 2, none⟩ =
        .ok txs ∧ packingShape 2 3 txs)) :=
  ⟨by decide, C1_packing_shape "S" "M" [⟨"A", 1, none⟩, ⟨"B", 2, none⟩, ⟨"C", 3, none⟩] 2
    none none (by decide)⟩

/-- Claim C7: concatenating the emitted transactions in order and dropping
the trailing memo operations yields exactly the input sequence mapped
one-to-one through the instruction builder in input order, for both modes
of both entry points: a transfers array passes through unchanged and a
recipients list with a fixed amount becomes one transfer per recipient;
no deduplication and no reordering occurs. -/
theorem C7_content_preservation (sender mint : PublicKey) (ts : List ITransfer)
    (rs : List String) (a : Int) (c : Nat) (mo : Option String) (dec : Option Nat)
    (hc : 1 ≤ c) :
    (∃ txs, generateBulkSplTransactions ⟨sender, mint, some ts, none, none, some c, mo, dec⟩ =
        .ok txs ∧ (txs.map contentOps).flatten =
          ts.map (fun t => createSplTransferInstructionByOwners mint sender
            t.recipient t.amount)) ∧
    (∃ txs, generateBulkSplTransactions ⟨sender, mint, none, some rs, some a, some c, mo, dec⟩ =
        .ok txs ∧ (txs.map contentOps).flatten =
          rs.map (fun r => createSplTransferInstructionByOwners mint sender r a)) ∧
    (∃ txs, generateBulkSolTransactions ⟨sender, some ts, none, none, some c, mo⟩ =
        .ok txs ∧ (txs.map contentOps).flatten =
          ts.map (fun t => createSolTransferInstruction sender t.recipient t.amount)) ∧
    (∃ txs, generateBulkSolTransactions ⟨sender, none, some rs, some a, some c, mo⟩ =
        .ok txs ∧ (txs.map contentOps).flatten =
          rs.map (fun r => createSolTransferInstruction sender r a)) := by
  have hc' : 1 ≤ (some c).getD DEFAULT_INSTRUCTIONS_PER_TX_TRANSFER := by simpa using hc
  refine ⟨⟨_, generateBulkSplTransactions_mode2 sender mint ts none none (some c) mo dec
        (Or.inl rfl) hc', ?_⟩,
      ⟨_, generateBulkSplTransactions_mode1 sender mint none rs a (some c) mo dec hc', ?_⟩,
      ⟨_, generateBulkSolTransactions_mode2 sender ts none none (some c) mo
        (Or.inl rfl) hc', ?_⟩,
      ⟨_, generateBulkSolTransactions_mode1 sender none rs a (some c) mo hc', ?_⟩⟩
  all_goals
    exact packed_flatten _ _ _ rfl (by
      intro x hx
      obtain ⟨t, _, rfl⟩ := List.mem_map.mp hx
      rfl)

theorem C7_content_preservation_witness :
    1 ≤ 2 ∧
    ((∃ txs, generateBulkSplTransactions ⟨"S", "M",
        some [⟨"A", 10, none⟩, ⟨"B", 20, none⟩], none, none, some 2, none, none⟩ =
        .ok txs ∧ (txs.map contentOps).flatten =
          ([⟨"A", 10, none⟩, ⟨"B", 20, none⟩] : List ITransfer).map
            (fun t => createSplTransferInstructionByOwners "M" "S" t.recipient t.amount)) ∧
     (∃ txs, generateBulkSplTransactions ⟨"S", "M", none, some ["A", "B", "C"], some 5,
        some 2, none, none⟩ =
        .ok txs ∧ (txs.map contentOps).flatten =
          ["A", "B", "C"].map (fun r => createSplTransferInstructionByOwners "M" "S" r 5)) ∧
     (∃ txs, generateBulkSolTransactions ⟨"S",
        some [⟨"A", 10, none⟩, ⟨"B", 20, none⟩], none, none, some 2, none⟩ =
        .ok txs ∧ (txs.map contentOps).flatten =
          ([⟨"A", 10, none⟩, ⟨"B", 20, none⟩] : List ITransfer).map
            (fun t => createSolTransferInstruction "S" t.recipient t.amount)) ∧
     (∃ txs, generateBulkSolTransactions ⟨"S", none, some ["A", "B", "C"], some 5,
        some 2, none⟩ =
        .ok txs ∧ (txs.map contentOps).flatten =
          ["A", "B", "C"].map (fun r => createSolTransferInstruction "S" r 5))) :=
  ⟨by decide, C7_content_preservation "S" "M" [⟨"A", 10, none⟩, ⟨"B", 20, none⟩]
    ["A", "B", "C"] 5 2 none none (by decide)⟩

/-- Claim C2: for every non-empty input to the transfer packing (either
mode of either entry point, any capacity that is ≥ 1 after defaulting),
every emitted transaction contains exactly one memo operation, that memo
is the last operation of the transaction, no transaction is the memo
alone (each holds at least one content operation, hence at least two
operations), and no transaction holds more than capacity + 1 operations;
an empty input yields no transactions at all. -/
theorem C2_memo_invariants (sender mint : PublicKey) (ts : List ITransfer)
    (rs : List String) (a : Int) (iptOpt : Option Nat) (mo : Option String)
    (dec : Option Nat)
    (hc : 1 ≤ iptOpt.getD DEFAULT_INSTRUCTIONS_PER_TX_TRANSFER) :
    (∃ txs, generateBulkSplTransactions ⟨sender, mint, some ts, none, none, iptOpt, mo, dec⟩ =
        .ok txs ∧
      (∀ tx ∈ txs,
        tx.countP (fun ins => ins.isMemo) = 1 ∧
        tx.getLast? = some (createMemoInstruction (mo.getD DEFAULT_SPL_MEMO) sender) ∧
        2 ≤ tx.length ∧
        tx.length ≤ iptOpt.getD DEFAULT_INSTRUCTIONS_PER_TX_TRANSFER + 1) ∧
      (ts = [] → txs = [])) ∧
    (∃ txs, generateBulkSplTransactions ⟨sender, mint, none, some rs, some a, iptOpt, mo, dec⟩ =
        .ok txs ∧
      (∀ tx ∈ txs,
        tx.countP (fun ins => ins.isMemo) = 1 ∧
        tx.getLast? = some (createMemoInstruction (mo.getD DEFAULT_SPL_MEMO) sender) ∧
        2 ≤ tx.length ∧
        tx.length ≤ iptOpt.getD DEFAULT_INSTRUCTIONS_PER_TX_TRANSFER + 1) ∧
      (rs = [] → txs = [])) ∧
    (∃ txs, generateBulkSolTransactions ⟨sender, some ts, none, none, iptOpt, mo⟩ =
        .ok txs ∧
      (∀ tx ∈ txs,
        tx.countP (fun ins => ins.isMemo) = 1 ∧
        tx.getLast? = some (createMemoInstruction (mo.getD DEFAULT_SOL_MEMO) sender) ∧
        2 ≤ tx.length ∧
        tx.length ≤ iptOpt.getD DEFAULT_INSTRUCTIONS_PER_TX_TRANSFER + 1) ∧
      (ts = [] → txs = [])) ∧
    (∃ txs, generateBulkSolTransactions ⟨sender, none, some rs, some a, iptOpt, mo⟩ =
        .ok txs ∧
      (∀ tx ∈ txs,
        tx.countP (fun ins => ins.isMemo) = 1 ∧
        tx.getLast? = some (createMemoInstruction (mo.getD DEFAULT_SOL_MEMO) sender) ∧
        2 ≤ tx.length ∧
        tx.length ≤ iptOpt.getD DEFAULT_INSTRUCTIONS_PER_TX_TRANSFER + 1) ∧
      (rs = [] → txs = [])) := by
  refine ⟨⟨_, generateBulkSplTransactions_mode2 sender mint ts none none iptOpt mo dec
        (Or.inl rfl) hc, ?_, ?_⟩,
      ⟨_, generateBulkSplTransactions_mode1 sender mint none rs a iptOpt mo dec hc, ?_, ?_⟩,
      ⟨_, generateBulkSolTransactions_mode2 sender ts none none iptOpt mo
        (Or.inl rfl) hc, ?_, ?_⟩,
      ⟨_, generateBulkSolTransactions_mode1 sender none rs a iptOpt mo hc, ?_, ?_⟩⟩
  · apply packed_mem _ hc
    · rfl
    · intro x hx
      obtain ⟨t, _, rfl⟩ := List.mem_map.mp hx
      rfl
  · intro h0
    subst h0
    simp [chunkAcc]
  · apply packed_mem _ hc
    · rfl
    · intro x hx
      obtain ⟨t, _, rfl⟩ := List.mem_map.mp hx
      rfl
  · intro h0
    subst h0
    simp [chunkAcc]
  · apply packed_mem _ hc
    · rfl
    · intro x hx
      obtain ⟨t, _, rfl⟩ := List.mem_map.mp hx
      rfl
  · intro h0
    subst h0
    simp [chunkAcc]
  · apply packed_mem _ hc
    · rfl
    · intro x hx
      obtain ⟨t, _, rfl⟩ := List.mem_map.mp hx
      rfl
  · intro h0
    subst h0
    simp [chunkAcc]

theorem C2_memo_invariants_witness :
    1 ≤ (some 2 : Option Nat).getD DEFAULT_INSTRUCTIONS_PER_TX_TRANSFER ∧
    ((∃ txs, generateBulkSplTransactions ⟨"S", "M",
        some [⟨"A", 1, none⟩, ⟨"B", 2, none⟩, ⟨"C", 3, none⟩], none, none, some 2,
        none, none⟩ = .ok txs ∧
      (∀ tx ∈ txs,
        tx.countP (fun ins => ins.isMemo) = 1 ∧
        tx.getLast? = some (createMemoInstruction ((none : Option String).getD
          DEFAULT_SPL_MEMO) "S") ∧
        2 ≤ tx.length ∧
        tx.length ≤ (some 2 : Option Nat).getD DEFAULT_INSTRUCTIONS_PER_TX_TRANSFER + 1) ∧
      (([⟨"A", 1, none⟩, ⟨"B", 2, none⟩, ⟨"C", 3, none⟩] : List ITransfer) = [] → txs = [])) ∧
     (∃ txs, generateBulkSplTransactions ⟨"S", "M", none, some ["A"], some 5, some 2,
        none, none⟩ = .ok txs ∧
      (∀ tx ∈ txs,
        tx.countP (fun ins => ins.isMemo) = 1 ∧
        tx.getLast? = some (createMemoInstruction ((none : Option String).getD
          DEFAULT_SPL_MEMO) "S") ∧
        2 ≤ tx.length ∧
        tx.length ≤ (some 2 : Option Nat).getD DEFAULT_INSTRUCTIONS_PER_TX_TRANSFER + 1) ∧
      ((["A"] : List String) = [] → txs = [])) ∧
     (∃ txs, generateBulkSolTransactions ⟨"S",
        some [⟨"A", 1, none⟩, ⟨"B", 2, none⟩, ⟨"C", 3, none⟩], none, none, some 2,
        none⟩ = .ok txs ∧
      (∀ tx ∈ txs,
        tx.countP (fun ins => ins.isMemo) = 1 ∧
        tx.getLast? = some (createMemoInstruction ((none : Option String).getD
          DEFAULT_SOL_MEMO) "S") ∧
        2 ≤ tx.length ∧
        tx.length ≤ (some 2 : Option Nat).getD DEFAULT_INSTRUCTIONS_PER_TX_TRANSFER + 1) ∧
      (([⟨"A", 1, none⟩, ⟨"B", 2, none⟩, ⟨"C", 3, none⟩] : List ITransfer) = [] → txs = [])) ∧
     (∃ txs, generateBulkSolTransactions ⟨"S", none, some ["A"], some 5, some 2,
        none⟩ = .ok txs ∧
      (∀ tx ∈ txs,
        tx.countP (fun ins => ins.isMemo) = 1 ∧
        tx.getLast? = some (createMemoInstruction ((none : Option String).getD
          DEFAULT_SOL_MEMO) "S") ∧
        2 ≤ tx.length ∧
        tx.length ≤ (some 2 : Option Nat).getD DEFAULT_INSTRUCTIONS_PER_TX_TRANSFER + 1) ∧
      ((["A"] : List String) = [] → txs = []))) :=
  ⟨by decide, C2_memo_invariants "S" "M" [⟨"A", 1, none⟩, ⟨"B", 2, none⟩, ⟨"C", 3, none⟩]
    ["A"] 5 (some 2) none none (by decide)⟩

/-- Claim C6: the transfer-generation entry points throw the configuration
error exactly when `transfers` is absent and not both `recipients` and
`fixedAmount` are present; whenever either input family is present the
call succeeds without raising. -/
theorem C6_configuration_error_iff (cfg : IBulkSplTransferConfig)
    (cfgS : IBulkSolTransferConfig) :
    ((∃ e, generateBulkSplTransactions cfg = .error e) ↔
      (cfg.transfers = none ∧ (cfg.recipients = none ∨ cfg.fixedAmount = none))) ∧
    ((∃ e, generateBulkSolTransactions cfgS = .error e) ↔
      (cfgS.transfers = none ∧ (cfgS.recipients = none ∨ cfgS.fixedAmount = none))) := by
  constructor
  · obtain ⟨sender, mint, tOpt, rOpt, aOpt, iptOpt, mo, dec⟩ := cfg
    rcases tOpt with _ | ts <;> rcases rOpt with _ | rs <;> rcases aOpt with _ | a <;>
      simp [generateBulkSplTransactions]
  · obtain ⟨sender, tOpt, rOpt, aOpt, iptOpt, mo⟩ := cfgS
    rcases tOpt with _ | ts <;> rcases rOpt with _ | rs <;> rcases aOpt with _ | a <;>
      simp [generateBulkSolTransactions]

/-- Claim C10: when both input families are present (both `transfers` and
`recipients` with `fixedAmount`), the generators raise no error and build
the output exclusively from `recipients` with `fixedAmount`; the
`transfers` array is silently ignored (replacing it by `none` leaves the
result unchanged). -/
theorem C10_mode_precedence (sender mint : PublicKey) (ts : List ITransfer)
    (rs : List String) (a : Int) (iptOpt : Option Nat) (mo : Option String)
    (dec : Option Nat) :
    (generateBulkSplTransactions ⟨sender, mint, some ts, some rs, some a, iptOpt, mo, dec⟩ =
        generateBulkSplTransactions ⟨sender, mint, none, some rs, some a, iptOpt, mo, dec⟩ ∧
      ∃ txs, generateBulkSplTransactions
        ⟨sender, mint, some ts, some rs, some a, iptOpt, mo, dec⟩ = .ok txs) ∧
    (generateBulkSolTransactions ⟨sender, some ts, some rs, some a, iptOpt, mo⟩ =
        generateBulkSolTransactions ⟨sender, none, some rs, some a, iptOpt, mo⟩ ∧
      ∃ txs, generateBulkSolTransactions
        ⟨sender, some ts, some rs, some a, iptOpt, mo⟩ = .ok txs) :=
  ⟨⟨rfl, ⟨_, rfl⟩⟩, ⟨rfl, ⟨_, rfl⟩⟩⟩

/-- Claim C8: for a recipient list of which M recipients need provisioning
and a provisioning capacity C ≥ 1, `generateTokenAccountCreationTransactions`
emits ceil(M/C) transactions whose sizes are C for every transaction
except possibly the last (which has size M mod C, or C when C divides M),
and no memo / trailing marker operation ever appears in a provisioning
transaction. -/
theorem C8_account_creation_shape (connection : Connection) (mint payer : PublicKey)
    (recipients : List String) (c M : Nat) (hc : 1 ≤ c)
    (hok : ∀ r ∈ recipients,
      exceptIsOk (connection.getAccountInfo (getAssociatedTokenAddressSync mint r)) = true)
    (hM : M = (recipients.filter (fun r => accountMissing connection mint r)).length) :
    ∃ txs, generateTokenAccountCreationTransactions connection mint payer recipients
        (some c) = .ok txs ∧
      txs.length = (M + c - 1) / c ∧
      (∀ tx ∈ txs.dropLast, tx.length = c) ∧
      (0 < M → ∃ last, txs.getLast? = some last ∧
        last.length = (if M % c = 0 then c else M % c)) ∧
      (∀ tx ∈ txs, ∀ ins ∈ tx, ins.isMemo = false) := by
  have heq := generateTokenAccountCreationTransactions_eq connection mint payer recipients
    (some c) (by simpa using hc) hok
  simp only [Option.getD_some] at heq
  refine ⟨_, heq, ?_, ?_, ?_, ?_⟩
  · rw [chunkAcc_length c hc _ [] (by simp; omega)]
    simp [hM]
  · intro tx htx
    exact chunkAcc_dropLast_size c hc _ [] (by simp; omega) tx htx
  · intro hMpos
    have hne : (recipients.filter (fun r => accountMissing connection mint r)).map
        (fun r => (createTokenAccountInstruction payer mint r).1) ≠ [] := by
      intro hnil
      have h0 := List.map_eq_nil_iff.mp hnil
      rw [h0] at hM
      simp at hM
      omega
    obtain ⟨last, hlast, hlen⟩ := chunkAcc_getLast_size c hc
      ((recipients.filter (fun r => accountMissing connection mint r)).map
        (fun r => (createTokenAccountInstruction payer mint r).1)) []
      (by simp; omega) (Or.inl hne)
    refine ⟨last, hlast, ?_⟩
    rw [hlen]
    simp [hM]
  · intro tx htx ins hins
    have hsub : ins ∈ (recipients.filter (fun r => accountMissing connection mint r)).map
        (fun r => (createTokenAccountInstruction payer mint r).1) := by
      simpa using chunkAcc_mem_subset c _ [] tx htx ins hins
    obtain ⟨r, _, rfl⟩ := List.mem_map.mp hsub
    rfl

theorem C8_account_creation_shape_witness :
    (1 ≤ 2 ∧
      (∀ r ∈ (["A", "B", "C"] : List String), exceptIsOk
        ((Connection.mk (fun ad => if ad = getAssociatedTokenAddressSync "M" "A"
          then .ok (some ()) else .ok none)).getAccountInfo
          (getAssociatedTokenAddressSync "M" r)) = true) ∧
      (2 : Nat) = ((["A", "B", "C"] : List String).filter
        (fun r => accountMissing (Connection.mk (fun ad =>
          if ad = getAssociatedTokenAddressSync "M" "A"
          then .ok (some ()) else .ok none)) "M" r)).length) ∧
    (∃ txs, generateTokenAccountCreationTransactions
        (Connection.mk (fun ad => if ad = getAssociatedTokenAddressSync "M" "A"
          then .ok (some ()) else .ok none)) "M" "P" ["A", "B", "C"] (some 2) = .ok txs ∧
      txs.length = (2 + 2 - 1) / 2 ∧
      (∀ tx ∈ txs.dropLast, tx.length = 2) ∧
      (0 < 2 → ∃ last, txs.getLast? = some last ∧
        last.length = (if 2 % 2 = 0 then 2 else 2 % 2)) ∧
      (∀ tx ∈ txs, ∀ ins ∈ tx, ins.isMemo = false)) :=
  ⟨⟨by decide, by decide, by decide⟩,
    C8_account_creation_shape
      (Connection.mk (fun ad => if ad = getAssociatedTokenAddressSync "M" "A"
        then .ok (some ()) else .ok none)) "M" "P" ["A", "B", "C"] 2 2
      (by decide) (by decide) (by decide)⟩

/-- Claim C5: the orchestrator builds provisioning operations exactly for
the recipients whose lookup reports the account missing, retained in the
original input order with no additions and no duplicates (the
concatenation of the provisioning transactions is the filtered recipient
list mapped to creation instructions), while the transfer transactions
contain one transfer operation for every supplied recipient regardless of
existence. -/
theorem C5_provisioning_exactness (connection : Connection) (sender mint : PublicKey)
    (rs : List String) (a : Int) (iptOpt : Option Nat) (mo : Option String)
    (dec : Option Nat)
    (hcAcc : 1 ≤ iptOpt.getD DEFAULT_INSTRUCTIONS_PER_TX_ACCOUNT_CREATION)
    (hcTr : 1 ≤ iptOpt.getD DEFAULT_INSTRUCTIONS_PER_TX_TRANSFER)
    (hok : ∀ r ∈ rs,
      exceptIsOk (connection.getAccountInfo (getAssociatedTokenAddressSync mint r)) = true) :
    ∃ res, generateCompleteBulkSplTransactions connection
        ⟨sender, mint, none, some rs, some a, iptOpt, mo, dec⟩ = .ok res ∧
      res.accountCreationTxs.flatten =
        (rs.filter (fun r => accountMissing connection mint r)).map
          (fun r => (createTokenAccountInstruction sender mint r).1) ∧
      (res.transferTxs.map contentOps).flatten =
        rs.map (fun r => createSplTransferInstructionByOwners mint sender r a) := by
  refine ⟨_, generateCompleteBulkSplTransactions_mode1 connection sender mint rs a iptOpt
    mo dec hcAcc hcTr hok, ?_, ?_⟩
  · rw [chunkAcc_flatten]
    simp
  · exact packed_flatten _ _ _ rfl (by
      intro x hx
      obtain ⟨r, _, rfl⟩ := List.mem_map.mp hx
      rfl)

theorem C5_provisioning_exactness_witness :
    ((1 : Nat) ≤ (none : Option Nat).getD DEFAULT_INSTRUCTIONS_PER_TX_ACCOUNT_CREATION ∧
      (1 : Nat) ≤ (none : Option Nat).getD DEFAULT_INSTRUCTIONS_PER_TX_TRANSFER ∧
      (∀ r ∈ (["A", "B", "C"] : List String), exceptIsOk
        ((Connection.mk (fun ad => if ad = getAssociatedTokenAddressSync "M" "A"
          then .ok (some ()) else .ok none)).getAccountInfo
          (getAssociatedTokenAddressSync "M" r)) = true)) ∧
    (∃ res, generateCompleteBulkSplTransactions
        (Connection.mk (fun ad => if ad = getAssociatedTokenAddressSync "M" "A"
          then .ok (some ()) else .ok none))
        ⟨"S", "M", none, some ["A", "B", "C"], some 5, none, none, none⟩ = .ok res ∧
      res.accountCreationTxs.flatten =
        ((["A", "B", "C"] : List String).filter
          (fun r => accountMissing (Connection.mk (fun ad =>
            if ad = getAssociatedTokenAddressSync "M" "A"
            then .ok (some ()) else .ok none)) "M" r)).map
          (fun r => (createTokenAccountInstruction "S" "M" r).1) ∧
      (res.transferTxs.map contentOps).flatten =
        (["A", "B", "C"] : List String).map
          (fun r => createSplTransferInstructionByOwners "M" "S" r 5)) :=
  ⟨⟨by decide, by decide, by decide⟩,
    C5_provisioning_exactness
      (Connection.mk (fun ad => if ad = getAssociatedTokenAddressSync "M" "A"
        then .ok (some ()) else .ok none)) "S" "M" ["A", "B", "C"] 5 none none none
      (by decide) (by decide) (by decide)⟩

/-- Claim C9: if any single existence lookup fails, the whole orchestration
call fails: `generateCompleteBulkSplTransactions` returns an error and no
result at all (its `Except` result type makes every call either a full
success carrying both transaction lists or a single typed error, so no
partial bundle lists can be returned). -/
theorem C9_lookup_failure_aborts (connection : Connection) (cfg : IBulkSplTransferConfig)
    (rs : List String) (hrs : deriveRecipientList cfg = .ok rs)
    (hfail : ∃ r ∈ rs, exceptIsOk
      (connection.getAccountInfo (getAssociatedTokenAddressSync cfg.mint r)) = false) :
    ∃ e, generateCompleteBulkSplTransactions connection cfg = .error e := by
  obtain ⟨e, he⟩ := accountCreationLoop_error connection cfg.mint cfg.sender
    (cfg.instructionsPerTx.getD DEFAULT_INSTRUCTIONS_PER_TX_ACCOUNT_CREATION) rs.length
    rs 0 [] [] hfail
  refine ⟨e, ?_⟩
  simp only [generateCompleteBulkSplTransactions, hrs]
  simp only [generateTokenAccountCreationTransactions, he]

theorem C9_lookup_failure_aborts_witness :
    (deriveRecipientList ⟨"S", "M", none, some ["A", "B", "C"], some 5, none, none, none⟩ =
      .ok ["A", "B", "C"] ∧
     (∃ r ∈ (["A", "B", "C"] : List String), exceptIsOk
        ((Connection.mk (fun ad => if ad = getAssociatedTokenAddressSync "M" "B"
          then .error "lookup failed" else .ok none)).getAccountInfo
          (getAssociatedTokenAddressSync "M" r)) = false)) ∧
    (∃ e, generateCompleteBulkSplTransactions
        (Connection.mk (fun ad => if ad = getAssociatedTokenAddressSync "M" "B"
          then .error "lookup failed" else .ok none))
        ⟨"S", "M", none, some ["A", "B", "C"], some 5, none, none, none⟩ = .error e) :=
  ⟨⟨rfl, by decide⟩,
    C9_lookup_failure_aborts
      (Connection.mk (fun ad => if ad = getAssociatedTokenAddressSync "M" "B"
        then .error "lookup failed" else .ok none))
      ⟨"S", "M", none, some ["A", "B", "C"], some 5, none, none, none⟩ ["A", "B", "C"]
      rfl (by decide)⟩

/-- Claim C3 counterexample: supplying capacity 0 (a value ≤ 0) does not
make any entry point fail: the two transfer generators and the
account-creation generator all return a successful result, so no
`CapacityError` is raised at entry (the account-creation call moreover
proceeds to issue its lookup rather than failing before it). -/
theorem C3_counterexample :
    (∃ txs, generateBulkSplTransactions ⟨"S", "M",
      some [⟨"A", 1, none⟩, ⟨"B", 2, none⟩], none, none, some 0, none, none⟩ = .ok txs) ∧
    (∃ txs, generateBulkSolTransactions ⟨"S",
      some [⟨"A", 1, none⟩, ⟨"B", 2, none⟩], none, none, some 0, none⟩ = .ok txs) ∧
    (∃ txs, generateTokenAccountCreationTransactions (Connection.mk (fun _ => .ok none))
      "M" "P" ["A", "B"] (some 0) = .ok txs) :=
  ⟨⟨_, rfl⟩, ⟨_, rfl⟩, ⟨_, rfl⟩⟩

/-- Claim C3 amended: no capacity validation exists in any entry point:
supplying capacity ≤ 0 (here 0) raises no error and nothing fails fast.
The transfer entry points then cut only at the last index, emitting a
single transaction holding every transfer plus the memo, and the
account-creation entry point still issues its lookups and emits one
single-instruction transaction per missing recipient. -/
theorem C3_no_capacity_validation (connection : Connection)
    (sender mint payer : PublicKey) (ts : List ITransfer) (rs : List String)
    (mo : Option String) (dec : Option Nat) (hts : ts ≠ [])
    (hok : ∀ r ∈ rs,
      exceptIsOk (connection.getAccountInfo (getAssociatedTokenAddressSync mint r)) = true) :
    generateBulkSplTransactions ⟨sender, mint, some ts, none, none, some 0, mo, dec⟩ =
      .ok [ts.map (fun t => createSplTransferInstructionByOwners mint sender
          t.recipient t.amount) ++
        [createMemoInstruction (mo.getD DEFAULT_SPL_MEMO) sender]] ∧
    generateBulkSolTransactions ⟨sender, some ts, none, none, some 0, mo⟩ =
      .ok [ts.map (fun t => createSolTransferInstruction sender t.recipient t.amount) ++
        [createMemoInstruction (mo.getD DEFAULT_SOL_MEMO) sender]] ∧
    generateTokenAccountCreationTransactions connection mint payer rs (some 0) =
      .ok ((rs.filter (fun r => accountMissing connection mint r)).map
        (fun r => [(createTokenAccountInstruction payer mint r).1])) := by
  refine ⟨?_, ?_, ?_⟩
  · simp only [generateBulkSplTransactions, Option.getD_some]
    rw [bulkTransferLoop_zero _ _ _ _ ts 0 [] [] (by simp) hts]
    simp
  · simp only [generateBulkSolTransactions, Option.getD_some]
    rw [bulkTransferLoop_zero _ _ _ _ ts 0 [] [] (by simp) hts]
    simp
  · simp only [generateTokenAccountCreationTransactions, Option.getD_some]
    rw [accountCreationLoop_zero connection mint payer _ rs 0 [] (by simp) hok]
    simp

theorem C3_no_capacity_validation_witness :
    (([⟨"A", 1, none⟩] : List ITransfer) ≠ [] ∧
      (∀ r ∈ (["B"] : List String), exceptIsOk
        ((Connection.mk (fun _ => .ok (none : Option Unit))).getAccountInfo
          (getAssociatedTokenAddressSync "M" r)) = true)) ∧
    (generateBulkSplTransactions ⟨"S", "M", some [⟨"A", 1, none⟩], none, none, some 0,
        none, none⟩ =
      .ok [([⟨"A", 1, none⟩] : List ITransfer).map
          (fun t => createSplTransferInstructionByOwners "M" "S" t.recipient t.amount) ++
        [createMemoInstruction ((none : Option String).getD DEFAULT_SPL_MEMO) "S"]] ∧
     generateBulkSolTransactions ⟨"S", some [⟨"A", 1, none⟩], none, none, some 0, none⟩ =
      .ok [([⟨"A", 1, none⟩] : List ITransfer).map
          (fun t => createSolTransferInstruction "S" t.recipient t.amount) ++
        [createMemoInstruction ((none : Option String).getD DEFAULT_SOL_MEMO) "S"]] ∧
     generateTokenAccountCreationTransactions (Connection.mk (fun _ => .ok none))
        "M" "P" ["B"] (some 0) =
      .ok (((["B"] : List String).filter
          (fun r => accountMissing (Connection.mk (fun _ => .ok none)) "M" r)).map
        (fun r => [(createTokenAccountInstruction "P" "M" r).1]))) :=
  ⟨⟨by decide, by decide⟩,
    C3_no_capacity_validation (Connection.mk (fun _ => .ok none)) "S" "M" "P"
      [⟨"A", 1, none⟩] ["B"] none none (by decide) (by decide)⟩

/-- Claim C4 counterexample: there is no independently settable pair of
capacity options.  With the single `instructionsPerTx` option left unset,
two missing recipients yield one provisioning transaction (default 12)
and one transfer transaction (default 18); setting that single option to
1 changes the packing of BOTH phases to two transactions each, so setting
the capacity used for one phase does change the capacity used for the
other. -/
theorem C4_counterexample :
    (∃ res, generateCompleteBulkSplTransactions (Connection.mk (fun _ => .ok none))
        ⟨"S", "M", none, some ["A", "B"], some 1, none, none, none⟩ = .ok res ∧
      res.accountCreationTxs.length = 1 ∧ res.transferTxs.length = 1) ∧
    (∃ res, generateCompleteBulkSplTransactions (Connection.mk (fun _ => .ok none))
        ⟨"S", "M", none, some ["A", "B"], some 1, some 1, none, none⟩ = .ok res ∧
      res.accountCreationTxs.length = 2 ∧ res.transferTxs.length = 2) :=
  ⟨⟨_, rfl, rfl, rfl⟩, ⟨_, rfl, rfl, rfl⟩⟩

/-- Claim C4 amended: both phases of the orchestration read the single
shared `instructionsPerTx` option: when it is unset, provisioning packs
at the default capacity 12 and transfers at the default capacity 18; when
it is set to c ≥ 1, both phases pack at capacity c.  The two capacities
are not independently settable. -/
theorem C4_shared_capacity_option (connection : Connection) (sender mint : PublicKey)
    (rs : List String) (a : Int) (mo : Option String) (dec : Option Nat)
    (hmiss : ∀ r ∈ rs,
      connection.getAccountInfo (getAssociatedTokenAddressSync mint r) = .ok none) :
    (∃ res, generateCompleteBulkSplTransactions connection
        ⟨sender, mint, none, some rs, some a, none, mo, dec⟩ = .ok res ∧
      res.accountCreationTxs.length = (rs.length + 12 - 1) / 12 ∧
      res.transferTxs.length = (rs.length + 18 - 1) / 18) ∧
    (∀ c, 1 ≤ c →
      ∃ res, generateCompleteBulkSplTransactions connection
          ⟨sender, mint, none, some rs, some a, some c, mo, dec⟩ = .ok res ∧
        res.accountCreationTxs.length = (rs.length + c - 1) / c ∧
        res.transferTxs.length = (rs.length + c - 1) / c) := by
  have hok : ∀ r ∈ rs,
      exceptIsOk (connection.getAccountInfo (getAssociatedTokenAddressSync mint r)) = true := by
    intro r hr
    rw [hmiss r hr]
    rfl
  have hfilter : rs.filter (fun r => accountMissing connection mint r) = rs :=
    List.filter_eq_self.mpr (fun r hr => by simp [accountMissing, hmiss r hr])
  constructor
  · refine ⟨_, generateCompleteBulkSplTransactions_mode1 connection sender mint rs a none
      mo dec (by decide) (by decide) hok, ?_, ?_⟩
    · have h12 : (none : Option Nat).getD DEFAULT_INSTRUCTIONS_PER_TX_ACCOUNT_CREATION = 12 :=
        rfl
      rw [h12, chunkAcc_length 12 (by omega) _ [] (by simp)]
      simp [hfilter]
    · have h18 : (none : Option Nat).getD DEFAULT_INSTRUCTIONS_PER_TX_TRANSFER = 18 := rfl
      rw [h18, packed_length 18 (by omega)]
      simp
  · intro c hc
    refine ⟨_, generateCompleteBulkSplTransactions_mode1 connection sender mint rs a (some c)
      mo dec (by simpa using hc) (by simpa using hc) hok, ?_, ?_⟩
    · have hgd : (some c).getD DEFAULT_INSTRUCTIONS_PER_TX_ACCOUNT_CREATION = c := rfl
      rw [hgd, chunkAcc_length c hc _ [] (by simp; omega)]
      simp [hfilter]
    · have hgd : (some c).getD DEFAULT_INSTRUCTIONS_PER_TX_TRANSFER = c := rfl
      rw [hgd, packed_length c hc]
      simp

theorem C4_shared_capacity_option_witness :
    (∀ r ∈ (["A", "B"] : List String),
      (Connection.mk (fun _ => Except.ok (none : Option Unit))).getAccountInfo
        (getAssociatedTokenAddressSync "M" r) = .ok none) ∧
    ((∃ res, generateCompleteBulkSplTransactions
        (Connection.mk (fun _ => Except.ok (none : Option Unit)))
        ⟨"S", "M", none, some ["A", "B"], some 1, none, none, none⟩ = .ok res ∧
      res.accountCreationTxs.length = (2 + 12 - 1) / 12 ∧
      res.transferTxs.length = (2 + 18 - 1) / 18) ∧
    (∀ c, 1 ≤ c →
      ∃ res, generateCompleteBulkSplTransactions
          (Connection.mk (fun _ => Except.ok (none : Option Unit)))
          ⟨"S", "M", none, some ["A", "B"], some 1, some c, none, none⟩ = .ok res ∧
        res.accountCreationTxs.length = (2 + c - 1) / c ∧
        res.transferTxs.length = (2 + c - 1) / c)) :=
  ⟨fun _ _ => rfl,
    C4_shared_capacity_option (Connection.mk (fun _ => Except.ok (none : Option Unit)))
      "S" "M" ["A", "B"] 1 none none (fun _ _ => rfl)⟩

end SolToolkit
